import Mathlib

set_option autoImplicit false

/-!
Shallow embedding of the fetch–normalize–dedupe–persist pipeline of the
`cybersecurity-job-scraper` repository (package `ai_cyberjobs`), together
with theorems settling the specification claims about it.

Modelling conventions:
- Python `datetime`/`date` values are represented by their ISO-8601 string
  (`isoformat()`), which is exactly the key the code sorts and serializes by.
- Python `set[str]` is represented by `Finset String`.
- File-system state is represented explicitly: per-claim, either as a map
  from paths to optional typed file contents, or as a trace of file
  operations performed by a writer.
- Python truthiness of optional strings (`None` and `""` are falsy) is made
  explicit in the `pyOr`/`pyTruthy` helpers.
-/

/-- Canonical posting record, from `ai_cyberjobs/models.py` (`class Job`).
`posted_at` is modelled by its ISO-8601 string representation. -/
structure Job where
  job_id : String
  title : String
  organization : String
  locations : List String
  description : String
  url : String
  posted_at : String
  salary : Option String
  grade : Option String
  remote : Option Bool
deriving Repr, DecidableEq

/-- Search query, from `ai_cyberjobs/models.py` (`class Query`). -/
structure Query where
  category : String
  keywords : List String
  days : Int
  limit : Int
deriving Repr, DecidableEq

/-- Configuration object, from `ai_cyberjobs/config.py` (`class Settings`);
only the fields the modelled pipeline reads. Paths are strings. -/
structure Settings where
  usajobs_email : String
  usajobs_api_key : String
  requests_timeout : Int
  rate_limit_per_min : Int
  data_dir : String
  docs_data_dir : String
deriving Repr, DecidableEq

/-- The two job categories, from `config.py` (`Category = Literal["ai", "cyber"]`). -/
inductive Category where
  | ai
  | cyber
deriving Repr, DecidableEq

/-- Keyword lists from `ai_cyberjobs/queries.py` (`AI_KEYWORDS`). -/
def AI_KEYWORDS : List String :=
  ["artificial intelligence", "AI", "machine learning", "ML", "deep learning",
   "NLP", "natural language processing", "LLM", "large language model",
   "computer vision", "generative", "reinforcement learning"]

/-- Keyword lists from `ai_cyberjobs/queries.py` (`CYBER_KEYWORDS`). -/
def CYBER_KEYWORDS : List String :=
  ["cybersecurity", "information security", "infosec", "SOC", "security analyst",
   "threat", "incident response", "security engineer", "penetration test",
   "red team", "blue team", "SIEM"]

/-- The category → keywords dictionary from `ai_cyberjobs/queries.py` (`CATEGORIES`). -/
def CATEGORIES : Category → List String
  | .ai => AI_KEYWORDS
  | .cyber => CYBER_KEYWORDS

/-! ### Query builder (`ai_cyberjobs/client/usajobs.py`) -/

/-- Python `str.strip()`: drop leading and trailing whitespace characters.
Implemented over the character list so that it evaluates by kernel
reduction. -/
def pyStrip (s : String) : String :=
  ⟨((s.data.dropWhile Char.isWhitespace).reverse.dropWhile Char.isWhitespace).reverse⟩

/-- Python `" " in t`: whether the term contains a space character (the
only character the code tests for when deciding to quote). -/
def hasSpace (t : String) : Bool :=
  t.data.any (fun c => c == ' ')

/-- The inner `render` helper of `build_keyword_query`: a term is wrapped in
double quotes exactly when it contains a space character (Python `" " in t`). -/
def renderTerm (t : String) : String :=
  if hasSpace t then "\"" ++ t ++ "\"" else t

/-- From `build_keyword_query` in `ai_cyberjobs/client/usajobs.py`:
strip each keyword, drop falsy (empty-after-strip) ones; with more than 4
remaining use only the first (quoted if it contains a space), otherwise join
all rendered terms with single spaces. An empty remainder gives `""`. -/
def build_keyword_query (keywords : List String) : String :=
  let kws := (keywords.map pyStrip).filter (fun k => k ≠ "")
  match kws with
  | [] => ""
  | k0 :: _ =>
    if kws.length > 4 then renderTerm k0
    else String.intercalate " " (kws.map renderTerm)

/-- From `normalize_days` in `ai_cyberjobs/client/usajobs.py`: map an
arbitrary day window to a supported `DatePosted` bucket. -/
def normalize_days (days : Int) : Int :=
  if days ≤ 1 then 1
  else if days ≤ 3 then 3
  else if days ≤ 7 then 7
  else 30

/-! ### Dedupe / state store (`ai_cyberjobs/pipeline/dedupe.py`) -/

/-- Path of the per-category known-ids state file, from `_state_path`. -/
def _state_path (s : Settings) (category : String) : String :=
  s.data_dir ++ "/state/known_" ++ category ++ "_ids.json"

/-- Contents of the known-ids state file system: each path maps to `none`
when the file is absent (or unreadable/corrupt, which `load_known_ids`
treats identically) and to `some ids` when it holds a JSON array of id
strings. -/
def IdsFS : Type := String → Option (List String)

/-- From `load_known_ids`: missing or unparseable state reads as the empty
set, otherwise the stored ids as a set. -/
def load_known_ids (fs : IdsFS) (s : Settings) (category : String) : Finset String :=
  match fs (_state_path s category) with
  | none => ∅
  | some data => data.toFinset

/-- The loop body of `compute_new_jobs`: fold over `jobs`, appending a job to
`new_jobs` when its id is not in the loaded set, and inserting every id into
`all_ids` (which starts from the loaded set). -/
def compute_new_core (existing : Finset String) (jobs : List Job) :
    List Job × Finset String :=
  jobs.foldl
    (fun acc j =>
      ((if j.job_id ∈ existing then acc.1 else acc.1 ++ [j]), insert j.job_id acc.2))
    ([], existing)

/-- From `compute_new_jobs`: load the known ids for the category from disk,
run the dedupe loop, and return the result. The function performs no writes,
so the file-system state is returned unchanged. -/
def compute_new_jobs (fs : IdsFS) (s : Settings) (category : String)
    (jobs : List Job) : (List Job × Finset String) × IdsFS :=
  (compute_new_core (load_known_ids fs s category) jobs, fs)

/-- A file-system operation performed by a writer. `writeFile` models
`path.open("w")` followed by writing the full serialized content (an
in-place truncate-and-write); `renameFile` models `os.replace`-style
renaming, which `save_known_ids` never performs. -/
inductive FSOp where
  | mkdirParents (dir : String)
  | writeFile (path : String) (ids : List String)
  | renameFile (src dst : String)
deriving Repr, DecidableEq

/-- From `save_known_ids`: create the parent directory, then open the state
file itself in `"w"` mode and dump the sorted id list into it. The returned
trace is the exact sequence of file-system operations the function performs. -/
def save_known_ids (s : Settings) (category : String) (ids : Finset String) :
    List FSOp :=
  [FSOp.mkdirParents (s.data_dir ++ "/state"),
   FSOp.writeFile (_state_path s category) (ids.sort (· ≤ ·))]

/-- Whether an operation is a rename. A write-temp-then-rename atomic
replace necessarily contains a rename, so a trace with no rename at all
cannot be an atomic replace. -/
def FSOp.isRename : FSOp → Bool
  | FSOp.renameFile _ _ => true
  | _ => false

/-! ### Persistence writers (`ai_cyberjobs/pipeline/store.py`) -/

/-- The flat dictionary `to_dict` produces for one Job (its `model_dump`
with `posted_at` coerced to its isoformat string). -/
structure JobDict where
  job_id : String
  title : String
  organization : String
  locations : List String
  description : String
  url : String
  posted_at : String
  salary : Option String
  grade : Option String
  remote : Option Bool
deriving Repr, DecidableEq

/-- From `to_dict` in `ai_cyberjobs/pipeline/store.py`: dump the model's
fields, with `posted_at` as its ISO string (already the representation of
`Job.posted_at` in this embedding). -/
def to_dict (j : Job) : JobDict :=
  ⟨j.job_id, j.title, j.organization, j.locations, j.description, j.url,
   j.posted_at, j.salary, j.grade, j.remote⟩

/-- The sort key comparison used by `write_latest`: Python sorts by the
tuple `(posted_at isoformat string, job_id)` with `reverse=True`, i.e. a
stable sort under "key of `a` is lexicographically ≥ key of `b`". -/
def jobSortGe (a b : Job) : Bool :=
  decide (b.posted_at < a.posted_at) ||
    (b.posted_at == a.posted_at && decide (b.job_id ≤ a.job_id))

/-- From `write_latest` in `ai_cyberjobs/pipeline/store.py`: the JSON
content written to the per-category "latest" file — the job list stably
sorted by `(posted_at, job_id)` descending, serialized via `to_dict`.
The surrounding path handling and the CSV sibling carry no claim. -/
def write_latest (jobs : List Job) : List JobDict :=
  (jobs.mergeSort jobSortGe).map to_dict

/-- History file system: each dated history path maps to `none` when absent
and to the serialized job list it holds otherwise. -/
def HistFS : Type := String → Option (List JobDict)

/-- Path of the dated history snapshot file for a category, as computed in
`write_history_snapshot` (`date_str` is `datetime.utcnow().date().isoformat()`,
passed here explicitly). -/
def hist_path (s : Settings) (category date_str : String) : String :=
  s.data_dir ++ "/history/" ++ category ++ "/" ++ date_str ++ ".json"

/-- From `write_history_snapshot` in `ai_cyberjobs/pipeline/store.py`: if the
dated file already exists the call writes nothing; otherwise it writes the
serialized job list to the dated path. -/
def write_history_snapshot (s : Settings) (category date_str : String)
    (jobs : List Job) (fs : HistFS) : HistFS :=
  if (fs (hist_path s category date_str)).isSome then fs
  else fun p =>
    if p = hist_path s category date_str then some (jobs.map to_dict) else fs p

/-! ### Normalizer (`ai_cyberjobs/pipeline/normalize.py`)

The raw upstream record is modelled as a typed structure whose fields are
all optional, mirroring exactly the dictionary keys `map_usajobs_item`
accesses. Python truthiness (`None` and `""` are falsy) drives the `or`
chains. -/

/-- Python `a or b` on an optional string and an optional string: the left
value when truthy (present and non-empty), otherwise the right. -/
def pyOr (a b : Option String) : Option String :=
  match a with
  | some s => if s = "" then b else some s
  | none => b

/-- Python truthiness of an optional string. -/
def pyTruthy (a : Option String) : Bool :=
  match a with
  | some s => s ≠ ""
  | none => false

/-- Python `str(x)` applied to the result of an `or` chain over optional
strings: `None` prints as `"None"`. -/
def pyStr (a : Option String) : String :=
  match a with
  | some s => s
  | none => "None"

/-- One entry of the `PositionLocation` list. -/
structure RawLocation where
  LocationName : Option String
deriving Repr, DecidableEq

/-- The nested `UserArea.Details` object. -/
structure RawDetails where
  JobSummary : Option String
  LowGrade : Option String
  HighGrade : Option String
deriving Repr, DecidableEq

/-- The `UserArea` object. -/
structure RawUserArea where
  Details : Option RawDetails
deriving Repr, DecidableEq

/-- The `MatchedObjectDescriptor` object: every field `map_usajobs_item`
reads, all optional. -/
structure RawDescriptor where
  PositionTitle : Option String
  Title : Option String
  OrganizationName : Option String
  DepartmentName : Option String
  PositionLocation : Option (List RawLocation)
  ApplyURI : Option (List (Option String))
  PositionURI : Option String
  ApplyURL : Option String
  UserArea : Option RawUserArea
  PositionSummary : Option String
  PublicationStartDate : Option String
  PositionStartDate : Option String
deriving Repr, DecidableEq

/-- A raw upstream record (one item of `SearchResultItems`). -/
structure RawItem where
  MatchedObjectId : Option String
  id : Option String
  MatchedObjectDescriptor : Option RawDescriptor
deriving Repr, DecidableEq

/-- The empty descriptor: the `pos` default `item.get("MatchedObjectDescriptor", {})`. -/
def emptyRawDescriptor : RawDescriptor :=
  ⟨none, none, none, none, none, none, none, none, none, none, none, none⟩

/-- A raw record in which every optional field is missing: the Python dict. -/
def emptyRawItem : RawItem := ⟨none, none, none⟩

/-- The runtime errors `map_usajobs_item` can hit in this model:
`pos.get("ApplyURI", [None])[0]` raises `IndexError` when `ApplyURI` is
present but an empty list, and the `Job(...)` construction at the end
raises `pydantic.ValidationError` when the computed url string does not
validate as an `HttpUrl` (`models.py`, `url: HttpUrl`). -/
inductive MapErr where
  | indexError
  | validationError
deriving Repr, DecidableEq

/-- Python `str(posted_raw).replace("Z", "+00:00")`: since the pattern is
the single character `Z`, replacement is characterwise expansion.
Implemented over the character list so that it evaluates by kernel
reduction. -/
def replaceZ (s : String) : String :=
  ⟨(s.data.map (fun c => if c == 'Z' then ("+00:00").data else [c])).flatten⟩

/-- From `map_usajobs_item` in `ai_cyberjobs/pipeline/normalize.py`.
`descFn` abstracts the description post-processing `_trim (_strip_html summary)`
(HTML entity unescaping, tag stripping and 600-character truncation — no
claim depends on the description text); `fromIso` abstracts
`datetime.fromisoformat`, returning `none` exactly when Python would raise;
`parseUrl` abstracts pydantic v2 `HttpUrl` validation at the final
`Job(...)` construction (`models.py`, `url: HttpUrl`), returning `none`
exactly when pydantic would raise `ValidationError` for the url string and
otherwise the stored (possibly normalized) URL string; `now` is the
`datetime.utcnow()` fallback, as an ISO string. All other Job fields are
plain strings, lists or optionals in the typed record universe, so the url
field is the only one whose pydantic validation can fail. -/
def map_usajobs_item (descFn : String → String) (fromIso : String → Option String)
    (parseUrl : String → Option String) (now : String) (item : RawItem) :
    Except MapErr Job :=
  let job_id := pyStr (pyOr (pyOr item.MatchedObjectId item.id) (some ""))
  let pos := item.MatchedObjectDescriptor.getD emptyRawDescriptor
  let title := pyStr (pyOr (pyOr pos.PositionTitle pos.Title) (some ""))
  let org := pyStr (pyOr (pyOr pos.OrganizationName pos.DepartmentName) (some ""))
  let locs := (pos.PositionLocation.getD []).map (fun l => l.LocationName.getD "")
  match pos.ApplyURI with
  | some [] => Except.error MapErr.indexError
  | _ =>
    let applyHead : Option String :=
      match pos.ApplyURI with
      | none => none
      | some [] => none
      | some (u :: _) => u
    let url := pyStr (pyOr (pyOr (pyOr applyHead pos.PositionURI) pos.ApplyURL)
      (some "https://www.usajobs.gov"))
    let details := (pos.UserArea.bind RawUserArea.Details)
    let summary := pyStr (pyOr (details.bind RawDetails.JobSummary)
      (some (pyStr (pyOr pos.PositionSummary (some "")))))
    let desc := descFn (pyStr (pyOr (some summary) (some "")))
    let posted_raw := pyOr pos.PublicationStartDate pos.PositionStartDate
    let posted_at :=
      match fromIso (replaceZ (pyStr posted_raw)) with
      | some dt => dt
      | none => now
    let low := details.bind RawDetails.LowGrade
    let high := details.bind RawDetails.HighGrade
    let salary :=
      if pyTruthy low && pyTruthy high then some (pyStr low ++ "-" ++ pyStr high)
      else low
    match parseUrl url with
    | none => Except.error MapErr.validationError
    | some stored_url =>
      Except.ok
        ⟨job_id, title, org,
         (match locs.filter (fun l => l ≠ "") with
          | [] => ["Various"]
          | ls => ls),
         desc, stored_url, posted_at, salary, none, none⟩

/-! ### API client search loop (`ai_cyberjobs/client/usajobs.py`, `USAJobsClient.search`)

The HTTP layer is abstracted by a page oracle: `oracle page size` is the
`SearchResultItems` list the upstream returns for that page request. The
normalizer applied per item is the parameter `f` (instantiated with
`map_usajobs_item`); an error from it aborts the drained sequence, as an
exception from the generator would. `search` returns both the drained
result and the trace of `(page, size)` requests issued. -/

/-- The inner `for raw in items` loop of `search`: map and yield items,
counting `fetched` up, breaking once `fetched >= limit`. Returns the jobs
yielded from this page and the updated `fetched`. -/
def consumePage (f : RawItem → Except MapErr Job) (limit : Nat) :
    List RawItem → Nat → Except MapErr (List Job) × Nat
  | [], fetched => (Except.ok [], fetched)
  | r :: rest, fetched =>
    match f r with
    | Except.error e => (Except.error e, fetched)
    | Except.ok j =>
      if limit ≤ fetched + 1 then (Except.ok [j], fetched + 1)
      else
        match consumePage f limit rest (fetched + 1) with
        | (Except.ok js, fin) => (Except.ok (j :: js), fin)
        | (Except.error e, fin) => (Except.error e, fin)

theorem consumePage_fetched_le (f : RawItem → Except MapErr Job) (limit : Nat) :
    ∀ (items : List RawItem) (fetched : Nat),
      fetched ≤ (consumePage f limit items fetched).2 := by
  intro items
  induction items with
  | nil => intro fetched; simp [consumePage]
  | cons r rest ih =>
    intro fetched
    simp only [consumePage]
    match f r with
    | Except.error e => simp
    | Except.ok j =>
      simp only
      split
      · simp
      · have h := ih (fetched + 1)
        match hc : consumePage f limit rest (fetched + 1) with
        | (Except.ok js, fin) =>
          rw [hc] at h
          simpa using Nat.le_of_succ_le h
        | (Except.error e, fin) =>
          rw [hc] at h
          simpa using Nat.le_of_succ_le h

theorem consumePage_ok_progress (f : RawItem → Except MapErr Job) (limit : Nat)
    (r : RawItem) (rest : List RawItem) (fetched : Nat) (js : List Job)
    (h : (consumePage f limit (r :: rest) fetched).1 = Except.ok js) :
    fetched < (consumePage f limit (r :: rest) fetched).2 := by
  cases hf : f r with
  | error e => simp [consumePage, hf] at h
  | ok j =>
    simp only [consumePage, hf] at h ⊢
    split
    · simp
    · have hle := consumePage_fetched_le f limit rest (fetched + 1)
      match hc : consumePage f limit rest (fetched + 1) with
      | (Except.ok js', fin) =>
        rw [hc] at hle
        simpa using Nat.lt_of_succ_le hle
      | (Except.error e, fin) =>
        rw [hc] at hle
        simpa using Nat.lt_of_succ_le hle

/-- The `while fetched < limit` pagination loop of `search`: request a page
of size `min 50 (limit - fetched)`, stop on an empty page, otherwise drain
it and continue on the next page. -/
def searchGo (oracle : Nat → Nat → List RawItem) (f : RawItem → Except MapErr Job)
    (limit : Nat) (page fetched : Nat) :
    Except MapErr (List Job) × List (Nat × Nat) :=
  if hlt : fetched < limit then
    let size := min 50 (limit - fetched)
    match oracle page size with
    | [] => (Except.ok [], [(page, size)])
    | r :: rest =>
      match hc : consumePage f limit (r :: rest) fetched with
      | (Except.error e, _) => (Except.error e, [(page, size)])
      | (Except.ok js, fetched') =>
        have hprog : fetched < fetched' := by
          have := consumePage_ok_progress f limit r rest fetched js
            (by rw [hc])
          rwa [hc] at this
        have : limit - fetched' < limit - fetched :=
          Nat.sub_lt_sub_left hlt hprog
        let rec_result := searchGo oracle f limit (page + 1) fetched'
        (rec_result.1.map (fun more => js ++ more), (page, size) :: rec_result.2)
  else (Except.ok [], [])
termination_by limit - fetched

/-- From `USAJobsClient.search`: build the keyword string, clamp the result
budget to `max(1, query.limit)`, and run the pagination loop from page 1. -/
def search (oracle : Nat → Nat → List RawItem) (f : RawItem → Except MapErr Job)
    (q : Query) : Except MapErr (List Job) × List (Nat × Nat) :=
  searchGo oracle f (max 1 q.limit).toNat 1 0

/-! ### Fetch orchestrator (`ai_cyberjobs/pipeline/fetch.py`) -/

/-- From `fetch_category`: soft-fail to an empty list — issuing no upstream
request — when either credential is the empty string; otherwise build the
category query and drain `USAJobsClient.search`. -/
def fetch_category (oracle : Nat → Nat → List RawItem)
    (f : RawItem → Except MapErr Job) (s : Settings) (category : Category)
    (days limit : Int) : Except MapErr (List Job) × List (Nat × Nat) :=
  if s.usajobs_email = "" || s.usajobs_api_key = "" then (Except.ok [], [])
  else search oracle f ⟨(match category with | .ai => "ai" | .cyber => "cyber"),
    CATEGORIES category, days, limit⟩

/-! ### Shared concrete fixtures -/

/-- A job whose only distinguishing field is its id, for concrete instances. -/
def jobWithId (i : String) : Job :=
  ⟨i, "t", "o", ["L"], "", "https://example.com", "2024-01-01", none, none, none⟩

/-- A concrete settings value with both credentials absent. -/
def settingsNoCreds : Settings :=
  ⟨"", "", 20, 10, "data", "docs/data"⟩

/-- A raw record whose `ApplyURI` field is present but an empty list; all
other fields are missing. -/
def applyUriEmptyItem : RawItem :=
  ⟨none, none,
   some ⟨none, none, none, none, none, some [], none, none, none, none, none, none⟩⟩

/-- A raw record whose only field is `PositionURI = "xyz"`: the computed url
string is `"xyz"`, which pydantic's `HttpUrl` rejects at `Job(...)`. -/
def positionUriXyzItem : RawItem :=
  ⟨none, none,
   some ⟨none, none, none, none, none, none, some "xyz", none, none, none, none, none⟩⟩

/-- A concrete stand-in for pydantic v2 `HttpUrl` validation, used by the
counterexample and witnesses: accepts exactly strings carrying an http(s)
scheme, returning them unchanged, and rejects scheme-less strings such as
`"xyz"` — as pydantic does. -/
def httpUrlCheck (s : String) : Option String :=
  if s.data.take 7 = ("http://").data ∨ s.data.take 8 = ("https://").data then some s
  else none

/-! ### Theorems for the claims -/

/-- Auxiliary: the dedupe loop of `compute_new_jobs`, run from an arbitrary
accumulator, appends exactly the not-yet-known jobs in order and inserts
every id. -/
theorem compute_new_core_loop (existing : Finset String) (jobs : List Job)
    (acc : List Job) (ids : Finset String) :
    jobs.foldl
      (fun acc j =>
        ((if j.job_id ∈ existing then acc.1 else acc.1 ++ [j]), insert j.job_id acc.2))
      (acc, ids) =
    (acc ++ jobs.filter (fun j => j.job_id ∉ existing),
     ids ∪ (jobs.map Job.job_id).toFinset) := by
  induction jobs generalizing acc ids with
  | nil => simp
  | cons j rest ih =>
    simp only [List.foldl_cons, List.filter_cons, List.map_cons, List.toFinset_cons]
    rw [ih]
    by_cases hj : j.job_id ∈ existing
    · simp [hj, Finset.union_insert, Finset.insert_union]
    · simp [hj, Finset.union_insert, Finset.insert_union]

/-- C1: `compute_new_jobs` returns the input-ordered sublist of jobs whose
id is not in the loaded known-id set, together with the union of the loaded
set and all ids seen in the input; in particular, with loaded ids
`{"a","b"}` and input ids `["a","c"]` it returns ids `["c"]` and the id set
`{"a","b","c"}`. -/
theorem compute_new_jobs_dedupe (fs : IdsFS) (s : Settings) (category : String)
    (jobs : List Job) :
    ((compute_new_jobs fs s category jobs).1.1 =
        jobs.filter (fun j => j.job_id ∉ load_known_ids fs s category)) ∧
    ((compute_new_jobs fs s category jobs).1.2 =
        load_known_ids fs s category ∪ (jobs.map Job.job_id).toFinset) ∧
    ((compute_new_core ({"a", "b"} : Finset String)
        [jobWithId "a", jobWithId "c"]).1.map Job.job_id = ["c"] ∧
      (compute_new_core ({"a", "b"} : Finset String)
        [jobWithId "a", jobWithId "c"]).2 = ({"a", "b", "c"} : Finset String)) := by
  unfold compute_new_jobs compute_new_core
  rw [compute_new_core_loop]
  refine ⟨by simp, by simp, by decide, by decide⟩

/-- C8: `compute_new_jobs` is a pure function of the loaded state and the
job list — it performs no writes (the file-system state it returns is the
one it was given), and a second call on that unchanged state returns the
identical `(new_jobs, updated_ids)` pair. -/
theorem compute_new_jobs_idempotent (fs : IdsFS) (s : Settings)
    (category : String) (jobs : List Job) :
    ((compute_new_jobs fs s category jobs).2 = fs) ∧
    ((compute_new_jobs ((compute_new_jobs fs s category jobs).2) s category jobs).1 =
      (compute_new_jobs fs s category jobs).1) :=
  ⟨rfl, rfl⟩

/-- C4: the full trace of file-system operations `save_known_ids` performs
is a `mkdir` of the state directory followed by a single in-place
truncate-and-write of the state file itself; it contains no rename, hence
no write-temp-then-rename atomic replace, contrary to the spec. -/
theorem save_known_ids_trace (s : Settings) (category : String)
    (ids : Finset String) :
    (save_known_ids s category ids =
      [FSOp.mkdirParents (s.data_dir ++ "/state"),
       FSOp.writeFile (_state_path s category) (ids.sort (· ≤ ·))]) ∧
    ((save_known_ids s category ids).all (fun op => !op.isRename) = true) :=
  ⟨rfl, rfl⟩

/-- C9: `normalize_days` rounds an arbitrary day window up to the next
supported bucket: d ≤ 1 ↦ 1, 2 ≤ d ≤ 3 ↦ 3, 4 ≤ d ≤ 7 ↦ 7, d > 7 ↦ 30. -/
theorem normalize_days_buckets (d : Int) :
    (d ≤ 1 → normalize_days d = 1) ∧
    (2 ≤ d → d ≤ 3 → normalize_days d = 3) ∧
    (4 ≤ d → d ≤ 7 → normalize_days d = 7) ∧
    (7 < d → normalize_days d = 30) := by
  unfold normalize_days
  refine ⟨fun h1 => by rw [if_pos h1], fun h2 h3 => ?_, fun h4 h7 => ?_, fun h7 => ?_⟩
  · rw [if_neg (by omega), if_pos h3]
  · rw [if_neg (by omega), if_neg (by omega), if_pos h7]
  · rw [if_neg (by omega), if_neg (by omega), if_neg (by omega)]

/-- Witness for C9: the bucket theorem applied at 0, 2, 5 and 8. -/
theorem normalize_days_buckets_witness :
    normalize_days 0 = 1 ∧ normalize_days 2 = 3 ∧
      normalize_days 5 = 7 ∧ normalize_days 8 = 30 :=
  ⟨(normalize_days_buckets 0).1 (by decide),
   (normalize_days_buckets 2).2.1 (by decide) (by decide),
   (normalize_days_buckets 5).2.2.1 (by decide) (by decide),
   (normalize_days_buckets 8).2.2.2 (by decide)⟩

/-- Counterexample for C3: the phrase "a\tb" contains whitespace (a tab),
so the claim requires it to be wrapped in double quotes; the code only
quotes on a space character and returns it unquoted. -/
theorem build_keyword_query_tab_unquoted :
    build_keyword_query ["a\tb"] = "a\tb" ∧
      ('\t').isWhitespace = true ∧ "a\tb" ≠ "\"a\tb\"" :=
  ⟨rfl, rfl, by decide⟩

/-- C3 (amended): writing `kws` for the input phrases stripped of
leading/trailing whitespace with empty results dropped — if `kws` has at
most 4 entries the result joins them with single spaces in input order,
each wrapped in double quotes exactly when it contains a space character
(not general whitespace); if `kws` has more than 4 entries the result is
only the first entry of `kws`, quoted exactly when it contains a space. -/
theorem build_keyword_query_spec (keywords : List String) :
    (((keywords.map pyStrip).filter (fun k => k ≠ "")).length ≤ 4 →
      build_keyword_query keywords =
        String.intercalate " "
          (((keywords.map pyStrip).filter (fun k => k ≠ "")).map renderTerm)) ∧
    (∀ k0 rest, (keywords.map pyStrip).filter (fun k => k ≠ "") = k0 :: rest →
      4 < ((keywords.map pyStrip).filter (fun k => k ≠ "")).length →
      build_keyword_query keywords = renderTerm k0) := by
  unfold build_keyword_query
  cases hk : (keywords.map pyStrip).filter (fun k => k ≠ "") with
  | nil => exact ⟨fun _ => rfl, fun k0 rest hcontra => by simp at hcontra⟩
  | cons k0 rest =>
    constructor
    · intro hlen
      simp only
      rw [if_neg (by omega)]
    · intro k0' rest' heq hlen
      simp only
      rw [if_pos (by omega)]
      injection heq with h1 _
      rw [h1]

/-- Witness for C3: the amended theorem applied to a two-phrase list (both
branches of the ≤ 4 case) and to a six-phrase list (the > 4 case). -/
theorem build_keyword_query_spec_witness :
    build_keyword_query ["machine learning", "AI"] = "\"machine learning\" AI" ∧
      build_keyword_query ["a", "b", "c", "d", "red team", "f"] = "a" :=
  ⟨(build_keyword_query_spec ["machine learning", "AI"]).1 (by decide),
   (build_keyword_query_spec ["a", "b", "c", "d", "red team", "f"]).2
     "a" ["b", "c", "d", "red team", "f"] (by decide) (by decide)⟩

/-- C6: when either configured credential is the empty string,
`fetch_category` returns the empty job list, raising nothing and issuing no
upstream page request (its request trace is empty). -/
theorem fetch_category_soft_fail (oracle : Nat → Nat → List RawItem)
    (f : RawItem → Except MapErr Job) (s : Settings) (category : Category)
    (days limit : Int)
    (h : s.usajobs_email = "" ∨ s.usajobs_api_key = "") :
    fetch_category oracle f s category days limit = (Except.ok [], []) := by
  unfold fetch_category
  rcases h with h | h <;> simp [h]

/-- Witness for C6: the soft-fail theorem applied to concrete settings with
empty credentials, an oracle that would return one item, and the real mapper. -/
theorem fetch_category_soft_fail_witness :
    fetch_category (fun _ _ => [emptyRawItem])
      (map_usajobs_item id (fun _ => none) httpUrlCheck "2025-01-01T00:00:00")
      settingsNoCreds Category.ai 2 50 = (Except.ok [], []) :=
  fetch_category_soft_fail (fun _ _ => [emptyRawItem])
    (map_usajobs_item id (fun _ => none) httpUrlCheck "2025-01-01T00:00:00")
    settingsNoCreds Category.ai 2 50 (Or.inl rfl)

/-- Auxiliary: `write_history_snapshot` writes nothing when the dated file
already exists. -/
theorem write_history_snapshot_of_isSome (s : Settings) (category date_str : String)
    (jobs : List Job) (fs : HistFS)
    (h : (fs (hist_path s category date_str)).isSome = true) :
    write_history_snapshot s category date_str jobs fs = fs := by
  unfold write_history_snapshot
  rw [if_pos h]

/-- Auxiliary: when the dated file is absent, `write_history_snapshot`
stores the serialized job list at the dated path. -/
theorem write_history_snapshot_of_none (s : Settings) (category date_str : String)
    (jobs : List Job) (fs : HistFS)
    (h : fs (hist_path s category date_str) = none) :
    write_history_snapshot s category date_str jobs fs (hist_path s category date_str)
      = some (jobs.map to_dict) := by
  unfold write_history_snapshot
  rw [if_neg (by rw [h]; simp), if_pos rfl]

/-- C7: dated history snapshots are first-writer-wins — if the dated file
was absent, writing `J1` and then `J2` on the same calendar date leaves
the whole file system as after the first write, and the dated file holds
the serialization of `J1`. -/
theorem write_history_snapshot_first_writer_wins (s : Settings)
    (category date_str : String) (J1 J2 : List Job) (fs : HistFS)
    (h : fs (hist_path s category date_str) = none) :
    (write_history_snapshot s category date_str J2
        (write_history_snapshot s category date_str J1 fs) =
      write_history_snapshot s category date_str J1 fs) ∧
    (write_history_snapshot s category date_str J2
        (write_history_snapshot s category date_str J1 fs)
        (hist_path s category date_str) = some (J1.map to_dict)) := by
  have h1 := write_history_snapshot_of_none s category date_str J1 fs h
  have h2 : write_history_snapshot s category date_str J2
      (write_history_snapshot s category date_str J1 fs) =
      write_history_snapshot s category date_str J1 fs :=
    write_history_snapshot_of_isSome s category date_str J2 _ (by rw [h1]; rfl)
  exact ⟨h2, by rw [h2, h1]⟩

/-- Witness for C7: the first-writer-wins theorem applied to a concrete
empty file system, first writing one job and then a different list on the
same date; the dated file keeps the first write's content. -/
theorem write_history_snapshot_first_writer_wins_witness :
    write_history_snapshot settingsNoCreds "ai" "2024-01-01" []
      (write_history_snapshot settingsNoCreds "ai" "2024-01-01" [jobWithId "a"]
        (fun _ => none))
      (hist_path settingsNoCreds "ai" "2024-01-01") = some [to_dict (jobWithId "a")] :=
  (write_history_snapshot_first_writer_wins settingsNoCreds "ai" "2024-01-01"
    [jobWithId "a"] [] (fun _ => none) rfl).2

/-- Counterexample for C2: `map_usajobs_item` is not total on every
dictionary. On the record with `ApplyURI` present as `[]`,
`pos.get("ApplyURI", [None])[0]` raises `IndexError`; and on the record
whose only field is `PositionURI = "xyz"` (so `ApplyURI` is absent), the
final `Job(...)` construction raises `pydantic.ValidationError` because
`"xyz"` is not a valid `HttpUrl`. -/
theorem map_usajobs_item_not_total :
    (map_usajobs_item id (fun _ => none) httpUrlCheck "2025-01-01T00:00:00"
        applyUriEmptyItem = Except.error MapErr.indexError) ∧
    (map_usajobs_item id (fun _ => none) httpUrlCheck "2025-01-01T00:00:00"
        positionUriXyzItem = Except.error MapErr.validationError) :=
  ⟨rfl, rfl⟩

/-- C2 (amended): for every raw record whose `ApplyURI` field, when present,
is a non-empty list, `map_usajobs_item` either returns a Job or raises
`pydantic.ValidationError` because the computed url string fails `HttpUrl`
validation — no other failure is possible; and on the record missing every
optional field it returns the Job with the safe defaults — empty
id/title/organization, sentinel location `["Various"]`, the fallback URL as
validated and stored by pydantic (`parseUrl "https://www.usajobs.gov" = some fb`),
and the current time for the missing date (`fromIso "None" = none` states
that Python's `fromisoformat` rejects the string `"None"`). -/
theorem map_usajobs_item_total (descFn : String → String)
    (fromIso : String → Option String) (parseUrl : String → Option String)
    (now fb : String) (hNone : fromIso "None" = none)
    (hFallback : parseUrl "https://www.usajobs.gov" = some fb) :
    (∀ item : RawItem,
      (∀ us, (item.MatchedObjectDescriptor.getD emptyRawDescriptor).ApplyURI =
          some us → us ≠ []) →
      ((map_usajobs_item descFn fromIso parseUrl now item).isOk = true ∨
        map_usajobs_item descFn fromIso parseUrl now item =
          Except.error MapErr.validationError)) ∧
    map_usajobs_item descFn fromIso parseUrl now emptyRawItem =
      Except.ok ⟨"", "", "", ["Various"], descFn "", fb, now,
        none, none, none⟩ := by
  constructor
  · intro item hap
    cases hm : map_usajobs_item descFn fromIso parseUrl now item with
    | ok j => exact Or.inl rfl
    | error e =>
      cases e with
      | validationError => exact Or.inr rfl
      | indexError =>
        exfalso
        cases hA : (item.MatchedObjectDescriptor.getD emptyRawDescriptor).ApplyURI with
        | none =>
          simp only [map_usajobs_item, hA] at hm
          split at hm <;> simp at hm
        | some us =>
          cases us with
          | nil => exact absurd (hap [] hA) (by simp)
          | cons u urest =>
            simp only [map_usajobs_item, hA] at hm
            split at hm <;> simp at hm
  · have hrep : fromIso (replaceZ "None") = none := by
      rw [show replaceZ "None" = "None" from by decide]
      exact hNone
    simp [map_usajobs_item, emptyRawItem, emptyRawDescriptor, pyOr, pyStr,
      pyTruthy, hrep, hFallback]

/-- Witness for C2's amended theorem: instantiated with the identity for the
description post-processing, a date parser that rejects everything, and the
concrete http(s)-scheme URL validator; the record missing every optional
field maps to the all-defaults Job with the validated fallback URL. -/
theorem map_usajobs_item_total_witness :
    map_usajobs_item id (fun _ => none) httpUrlCheck "2025-06-30T12:00:00"
        emptyRawItem =
      Except.ok ⟨"", "", "", ["Various"], "", "https://www.usajobs.gov",
        "2025-06-30T12:00:00", none, none, none⟩ :=
  (map_usajobs_item_total id (fun _ => none) httpUrlCheck "2025-06-30T12:00:00"
    "https://www.usajobs.gov" rfl (by decide)).2

/-- Auxiliary: the descending `(posted_at, job_id)` comparison is transitive. -/
theorem jobSortGe_trans (a b c : Job) (hab : jobSortGe a b = true)
    (hbc : jobSortGe b c = true) : jobSortGe a c = true := by
  simp only [jobSortGe, Bool.or_eq_true, Bool.and_eq_true, decide_eq_true_eq,
    beq_iff_eq] at *
  rcases hab with h1 | ⟨h1, h1'⟩
  · rcases hbc with h2 | ⟨h2, _⟩
    · exact Or.inl (lt_trans h2 h1)
    · exact Or.inl (h2 ▸ h1)
  · rcases hbc with h2 | ⟨h2, h2'⟩
    · exact Or.inl (h1 ▸ h2)
    · exact Or.inr ⟨h1 ▸ h2, le_trans h2' h1'⟩

/-- Auxiliary: the descending `(posted_at, job_id)` comparison is total. -/
theorem jobSortGe_total (a b : Job) :
    (jobSortGe a b || jobSortGe b a) = true := by
  simp only [jobSortGe, Bool.or_eq_true, Bool.and_eq_true, decide_eq_true_eq,
    beq_iff_eq]
  rcases lt_trichotomy a.posted_at b.posted_at with h | h | h
  · exact Or.inr (Or.inl h)
  · rcases le_total a.job_id b.job_id with hid | hid
    · exact Or.inr (Or.inr ⟨h, hid⟩)
    · exact Or.inl (Or.inr ⟨h.symm, hid⟩)
  · exact Or.inl (Or.inl h)

/-- C5: `write_latest` emits a permutation of the serialized job list in
which every record precedes all records with a strictly earlier `posted_at`,
and among records with equal `posted_at` the lexicographically larger
`job_id` comes first (equivalently, the emitted sequence is pairwise
non-increasing in the `(posted_at, job_id)` key). -/
theorem write_latest_sorted (jobs : List Job) :
    (write_latest jobs).Perm (jobs.map to_dict) ∧
    (write_latest jobs).Pairwise (fun a b =>
      b.posted_at ≤ a.posted_at ∧
        (a.posted_at = b.posted_at → b.job_id ≤ a.job_id)) := by
  constructor
  · exact (List.mergeSort_perm jobs jobSortGe).map to_dict
  · have hs := List.sorted_mergeSort jobSortGe_trans jobSortGe_total jobs
    refine hs.map to_dict fun a b hab => ?_
    simp only [jobSortGe, Bool.or_eq_true, Bool.and_eq_true, decide_eq_true_eq,
      beq_iff_eq] at hab
    simp only [to_dict]
    rcases hab with h | ⟨h, h'⟩
    · exact ⟨le_of_lt h, fun heq => absurd (heq ▸ h) (lt_irrefl _)⟩
    · exact ⟨le_of_eq h, fun _ => h'⟩

/-- C10: for a query whose limit is zero or negative, `search` clamps the
effective budget to 1: it issues exactly one upstream request, for page 1
with page size 1, and yields the first item of that page mapped through the
normalizer (so it may yield one Job) rather than an empty sequence by
construction. -/
theorem search_limit_clamped (oracle : Nat → Nat → List RawItem)
    (f : RawItem → Except MapErr Job) (q : Query) (h : q.limit ≤ 0) :
    search oracle f q =
      ((match oracle 1 1 with
        | [] => Except.ok []
        | r :: _ => (f r).map (fun j => [j])), [(1, 1)]) := by
  unfold search
  rw [show (max 1 q.limit).toNat = 1 by omega]
  rw [searchGo]
  rw [dif_pos (by decide : (0 : Nat) < 1)]
  simp only [Nat.sub_zero, show min 50 1 = 1 from rfl]
  cases ho : oracle 1 1 with
  | nil => simp
  | cons r rest =>
    simp only
    cases hf : f r with
    | error e =>
      have hcp : consumePage f 1 (r :: rest) 0 = (Except.error e, 0) := by
        simp [consumePage, hf]
      split
      · rename_i e' fetched heq
        rw [hcp] at heq
        injection heq with h1 h2
        injection h1 with h1
        simp [hf, h1, Except.map]
      · rename_i js fetched heq
        rw [hcp] at heq
        injection heq with h1 h2
        exact absurd h1 (by simp)
    | ok j =>
      have hcp : consumePage f 1 (r :: rest) 0 = (Except.ok [j], 1) := by
        simp [consumePage, hf]
      split
      · rename_i e' fetched heq
        rw [hcp] at heq
        injection heq with h1 h2
        exact absurd h1 (by simp)
      · rename_i js fetched heq
        rw [hcp] at heq
        injection heq with h1 h2
        injection h1 with h1
        subst h1 h2
        rw [searchGo]
        simp [hf, Except.map]

/-- Witness for C10: a query with limit 0 against an oracle returning one
raw record; `search` requests page 1 with size 1 and yields that record's
Job. -/
theorem search_limit_clamped_witness :
    search (fun _ _ => [emptyRawItem])
      (map_usajobs_item id (fun _ => none) httpUrlCheck "2025-01-01T00:00:00")
      ⟨"ai", AI_KEYWORDS, 2, 0⟩ =
      (Except.ok [⟨"", "", "", ["Various"], "", "https://www.usajobs.gov",
        "2025-01-01T00:00:00", none, none, none⟩], [(1, 1)]) := by
  rw [search_limit_clamped (fun _ _ => [emptyRawItem])
    (map_usajobs_item id (fun _ => none) httpUrlCheck "2025-01-01T00:00:00")
    ⟨"ai", AI_KEYWORDS, 2, 0⟩ (by decide)]
  rfl
